import Mathlib

/-!
Shallow embedding of `src/find_emails.py` (class `EmailDomainSearcher`).

Modelling conventions:
- a file on disk is a `FileData`: a `readable` flag (false models a file whose
  `open` raises `OSError`/`IOError`) and its raw bytes as `List Nat`;
- a directory tree is an `Entry`; sibling order is the listing order of the
  filesystem; paths are lists of name components relative to the search root,
  rendered to strings with `renderPath`;
- the standard-library calls `mimetypes.guess_type` and UTF-8 decoding with
  `errors=ignore` are abstract parameters, bundled in `Env`; the `latin-1`
  fallback decoding has exact byte-to-codepoint semantics and is modelled
  concretely by `latin1Decode`;
- Python string comparison (used by `sorted`) is lexicographic on code
  points and is modelled by `strLe`; the Python `set` is modelled by
  `List.dedup`, so `sorted(set(xs))` becomes an insertion sort of `xs.dedup`.
-/

/-- Raw state of one file: whether reads succeed, and its bytes. -/
structure FileData where
  readable : Bool
  content : List Nat
deriving DecidableEq, Repr

mutual
/-- A directory tree: regular files with data, directories with children. -/
inductive Entry where
  | file (name : String) (data : FileData)
  | dir (name : String) (children : EntryList)
deriving DecidableEq, Repr
/-- Children of a directory, in listing order. -/
inductive EntryList where
  | nil
  | cons (head : Entry) (tail : EntryList)
deriving DecidableEq, Repr
end

/-- Children of a directory as an ordinary list. -/
def entsToList : EntryList → List Entry
  | .nil => []
  | .cons e rest => e :: entsToList rest

/-- Environment for the two standard-library calls the script makes:
`mimetypes.guess_type` on the rendered path string, and lossy UTF-8 decoding
of raw bytes (`errors=ignore`, which never raises on bad bytes). -/
structure Env where
  guessType : String → Option String
  decodeUtf8 : List Nat → String

/-- Reading the bytes of a file: `none` models `OSError`/`IOError`. -/
def tryRead (fd : FileData) : Option (List Nat) :=
  if fd.readable then some fd.content else none

/-- Python `str.lower` restricted to ASCII, as applied to extensions. -/
def strLower (s : String) : String :=
  String.mk (s.data.map Char.toLower)

/-- Characters stripped by Python `str.strip()` (the ASCII whitespace
characters; exotic Unicode spaces are not modelled). -/
def isPySpace (c : Char) : Bool :=
  c == ' ' || c == '\t' || c == '\n' || c == '\r' || c == '\x0b' || c == '\x0c'

/-- Python `str.strip()`: remove leading and trailing whitespace. -/
def pyStrip (s : String) : String :=
  String.mk (((s.data.dropWhile isPySpace).reverse.dropWhile isPySpace).reverse)

/-- Python `str.startswith`. -/
def pyStartsWith (s pre : String) : Bool :=
  List.isPrefixOf pre.data s.data

/-- Python `PurePath.suffix` of a file name: the part from the last dot,
empty when the dot is absent, leading, or trailing
(`name[i:] if 0 < i < len(name) - 1 else ""`). -/
def pySuffix (name : String) : String :=
  let cs := name.data
  match (cs.enum.filter (fun p => p.2 == '.')).getLast? with
  | some p =>
    if 0 < p.1 ∧ p.1 + 1 < cs.length then String.mk (cs.drop p.1) else ""
  | none => ""

/-- The fixed deny-list `self.binary_extensions` (source lines 21-29). -/
def binary_extensions : List String :=
  [".exe", ".bin", ".so", ".dll", ".dylib", ".a", ".o", ".obj", ".class",
   ".jar", ".war", ".ear", ".zip", ".gz", ".tar", ".bz2", ".xz", ".7z",
   ".rar", ".pdf", ".doc", ".docx", ".xls", ".xlsx", ".ppt", ".pptx",
   ".jpg", ".jpeg", ".png", ".gif", ".bmp", ".tiff", ".ico", ".svg",
   ".mp3", ".mp4", ".avi", ".mov", ".wmv", ".flv", ".mkv", ".webm",
   ".iso", ".dmg", ".img", ".deb", ".rpm", ".msi", ".woff", ".woff2",
   ".ttf", ".otf", ".eot", ".pyc", ".pyo", ".pyd"]

/-- The null-byte sniff of `is_binary_file` (source lines 92-102): read the
first 1024 bytes and look for a zero byte; a read failure classifies the
file as binary. -/
def nullByteCheck (fd : FileData) : Bool :=
  match tryRead fd with
  | some bs => (bs.take 1024).contains 0
  | none => true

/-- Method `is_binary_file` (source lines 75-106): lowercased extension in
the deny-list, then MIME guess not among the textual types, then the
null-byte sniff. `pathStr` is the full rendered path, `fname` its final
component. -/
def is_binary_file (env : Env) (pathStr fname : String) (fd : FileData) : Bool :=
  if strLower (pySuffix fname) ∈ binary_extensions then true
  else
    match env.guessType pathStr with
    | some mime =>
      if !(pyStartsWith mime "text/") && mime != "application/json"
          && mime != "application/xml" && mime != "text/xml" then true
      else nullByteCheck fd
    | none => nullByteCheck fd

/-- Python `latin-1` decoding: each byte becomes the code point of its value
modulo 256 (it cannot fail on arbitrary bytes). -/
def latin1Decode (bs : List Nat) : String :=
  String.mk (bs.map (fun b => Char.ofNat (b % 256)))

/-- Python substring test `sub in content` on code-point sequences. -/
def strContainsSub (content sub : String) : Bool :=
  decide (List.IsInfix sub.data content.data)

/-- Method `search_file_content` (source lines 108-141): binary files are
skipped; otherwise the content is decoded as UTF-8 with `errors=ignore` and
tested for the domain; an `OSError`/`IOError` on that open is retried once
with `latin-1`, and a failure of both attempts yields false. -/
def search_file_content (env : Env) (domain : String) (pathStr fname : String)
    (fd : FileData) : Bool :=
  if is_binary_file env pathStr fname fd then false
  else
    match tryRead fd with
    | some bs => strContainsSub (env.decodeUtf8 bs) domain
    | none =>
      match tryRead fd with
      | some bs => strContainsSub (latin1Decode bs) domain
      | none => false

/-- Whether `search_file_content` reaches the point of opening and testing
the content of the file: lines 110-113 return early on binary files before
any content read. -/
def content_scanned (env : Env) (pathStr fname : String) (fd : FileData) : Bool :=
  !(is_binary_file env pathStr fname fd)

/-- Method `is_excluded_dir` (source lines 70-73): exact equality of the
final path component against the loaded set. -/
def is_excluded_dir (excluded : List String) (dirName : String) : Bool :=
  decide (dirName ∈ excluded)

/-- Regular files among the children of one directory, in listing order
(the `files` list of one `os.walk` tuple). -/
def listFiles : EntryList → List (String × FileData)
  | .nil => []
  | .cons (.file n d) rest => (n, d) :: listFiles rest
  | .cons (.dir _ _) rest => listFiles rest

mutual
/-- Contribution of one subdirectory entry to the walk of its parent
(source lines 148-167): a subdirectory whose name is excluded is pruned
from `dirs` before `os.walk` recurses into it, so it contributes nothing; a
kept subdirectory contributes its own files and its descent, each path
prefixed with the subdirectory name. A file entry contributes nothing here
(it was already yielded at its own level). -/
def walkEntry (excluded : List String) : Entry → List (List String × FileData)
  | .file _ _ => []
  | .dir n cs =>
    if is_excluded_dir excluded n then []
    else ((listFiles cs).map (fun nd => ([nd.1], nd.2)) ++ descend excluded cs).map
      (fun q => (n :: q.1, q.2))
/-- Descent of `os.walk` below one directory whose children are given, in
listing order. -/
def descend (excluded : List String) : EntryList → List (List String × FileData)
  | .nil => []
  | .cons e rest => walkEntry excluded e ++ descend excluded rest
end

/-- Generator `find_files` run on a directory with children `children`: the
files of that directory, then everything below the non-excluded
subdirectories. Paths are component lists relative to this directory. -/
def find_files (excluded : List String) (children : EntryList) :
    List (List String × FileData) :=
  (listFiles children).map (fun nd => ([nd.1], nd.2)) ++ descend excluded children

/-- Generator `find_files` started at the search root (source lines
143-167): `os.walk` begins inside the root, so the name of the root itself
is never tested against the exclusion set. Walking a non-directory yields
nothing. -/
def find_files_root (excluded : List String) : Entry → List (List String × FileData)
  | .file _ _ => []
  | .dir _ children => find_files excluded children

/-- Processing of one line of the exclusion file (source lines 65-68):
strip, drop empty lines and lines starting with a hash, add the stripped
line to the set. -/
def load_excluded_line (acc : List String) (line : String) : List String :=
  let l := pyStrip line
  if l ≠ "" ∧ pyStartsWith l "#" = false then acc.insert l else acc

/-- Method `load_excluded_dirs` (source lines 58-68) over the lines of the
exclusion file (newlines already split off). -/
def load_excluded_dirs (lines : List String) : List String :=
  lines.foldl load_excluded_line []

/-- Rendering of `root_path / file_name` as a string: the resolved search
path followed by the relative components, joined with slashes. -/
def renderPath (searchPath : String) (p : List String) : String :=
  String.intercalate "/" (searchPath :: p)

/-- Lexicographic comparison of code-point sequences, the order Python uses
to compare strings. -/
def charListLe : List Char → List Char → Bool
  | [], _ => true
  | _ :: _, [] => false
  | a :: as, b :: bs =>
    if a.toNat < b.toNat then true
    else if b.toNat < a.toNat then false
    else charListLe as bs

/-- Python string comparison, as used by `sorted` on the result paths. -/
def strLe (a b : String) : Bool := charListLe a.data b.data

/-- The order on path strings used by the reporter, as a relation. -/
def pathLe (a b : String) : Prop := strLe a b = true

instance : DecidableRel pathLe := fun a b => instDecidableEqBool (strLe a b) true

/-- Method `search_domain` (source lines 173-207): filter the walked files
by `search_file_content`, then `sorted(set(...))` of the matching paths. -/
def search_domain (env : Env) (excluded : List String) (domain : String)
    (searchPath : String) (root : Entry) : List String :=
  let files := find_files_root excluded root
  let matching := files.filter (fun q =>
    search_file_content env domain (renderPath searchPath q.1) (q.1.getLastD "") q.2)
  List.insertionSort pathLe ((matching.map (fun q => renderPath searchPath q.1)).dedup)

/-- Method `save_results` (source lines 209-213): the output file is opened
in mode `w`, which truncates, so its previous content `prev` is discarded;
each result is written followed by a newline. -/
def save_results (prev : String) (results : List String) : String :=
  let _ := prev
  String.join (results.map (fun p => p ++ "\n"))

/-- One whole run as far as the output file is concerned: load the
exclusion set from the exclusion-file lines, search, save over whatever the
output file held before. -/
def runOutput (env : Env) (excludeLines : List String) (domain searchPath : String)
    (root : Entry) (prevOutput : String) : String :=
  save_results prevOutput
    (search_domain env (load_excluded_dirs excludeLines) domain searchPath root)

/-- External events of one run, as seen by `main` (source lines 301-308):
normal completion, `KeyboardInterrupt`, or any other uncaught exception. -/
inductive RunEvent where
  | ok
  | interrupted
  | uncaughtError
deriving DecidableEq, Repr

/-- Exit code of the process (source lines 215-223 and 301-308): 1 when the
search path is missing (`none`) or not a directory, 1 on interrupt or
uncaught error, 0 otherwise. -/
def exit_code (root : Option Entry) (ev : RunEvent) : Nat :=
  match root with
  | none => 1
  | some (.file _ _) => 1
  | some (.dir _ _) =>
    match ev with
    | .ok => 0
    | .interrupted => 1
    | .uncaughtError => 1

/-- The list `default_excludes` of `create_default_exclude_file` (source
lines 43-52), flattened exactly as in the source. -/
def default_excludes : List String :=
  ["# Directories to exclude from search (one per line)",
   "# Lines starting with # are comments",
   "logs", ".git", ".svn", ".hg", "node_modules", ".npm", ".yarn",
   "vendor", "cache", "tmp", "temp", ".cache", "build", "dist",
   "target", ".idea", ".vscode", ".DS_Store", "__pycache__",
   "*.egg-info", ".pytest_cache", ".coverage", "htmlcov",
   ".tox", ".venv", "venv", "env", ".mypy_cache", ".terraform",
   "bower_components", "jspm_packages", "web_modules"]

/-- Content written by `create_default_exclude_file` (source lines 54-55):
the default entries joined by newlines, with a trailing newline. -/
def create_default_exclude_file : String :=
  String.intercalate "\n" default_excludes ++ "\n"

/-- Content of the exclusion file after `load_excluded_dirs` ran (source
lines 58-62): created with the defaults only when absent, read and left
untouched otherwise. -/
def exclude_file_after_run : Option String → String
  | none => create_default_exclude_file
  | some c => c

/-! Helper lemmas shared by the claim theorems. -/

theorem charListLe_total : ∀ as bs : List Char,
    charListLe as bs = true ∨ charListLe bs as = true := by
  intro as
  induction as with
  | nil => intro bs; left; simp [charListLe]
  | cons a as ih =>
    intro bs
    cases bs with
    | nil => right; simp [charListLe]
    | cons b bs =>
      by_cases h1 : a.toNat < b.toNat
      · left; simp [charListLe, h1]
      · by_cases h2 : b.toNat < a.toNat
        · right; simp [charListLe, h2]
        · rcases ih bs with h | h
          · left; simp [charListLe, h1, h2, h]
          · right; simp [charListLe, h1, h2, h]

theorem charListLe_trans : ∀ as bs cs : List Char,
    charListLe as bs = true → charListLe bs cs = true → charListLe as cs = true := by
  intro as
  induction as with
  | nil => intro bs cs _ _; simp [charListLe]
  | cons a as ih =>
    intro bs cs hab hbc
    cases bs with
    | nil => simp [charListLe] at hab
    | cons b bs =>
      cases cs with
      | nil => simp [charListLe] at hbc
      | cons c cs =>
        simp only [charListLe] at hab hbc ⊢
        by_cases h1 : a.toNat < b.toNat
        · by_cases h2 : b.toNat < c.toNat
          · have : a.toNat < c.toNat := Nat.lt_trans h1 h2
            simp [this]
          · by_cases h2' : c.toNat < b.toNat
            · simp [h2, h2'] at hbc
            · have hbc' : b.toNat = c.toNat := Nat.le_antisymm (Nat.le_of_not_lt h2') (Nat.le_of_not_lt h2)
              have : a.toNat < c.toNat := hbc' ▸ h1
              simp [this]
        · by_cases h1' : b.toNat < a.toNat
          · simp [h1, h1'] at hab
          · have hab' : a.toNat = b.toNat := Nat.le_antisymm (Nat.le_of_not_lt h1') (Nat.le_of_not_lt h1)
            by_cases h2 : b.toNat < c.toNat
            · have : a.toNat < c.toNat := hab' ▸ h2
              simp [this]
            · by_cases h2' : c.toNat < b.toNat
              · simp [h2, h2'] at hbc
              · have hbc' : b.toNat = c.toNat := Nat.le_antisymm (Nat.le_of_not_lt h2') (Nat.le_of_not_lt h2)
                have hac : a.toNat = c.toNat := hab'.trans hbc'
                have hnlt : ¬ a.toNat < c.toNat := by omega
                have hnlt' : ¬ c.toNat < a.toNat := by omega
                simp only [h1, if_neg h1, if_neg h1'] at hab
                simp only [if_neg h2, if_neg h2'] at hbc
                simp [hnlt, hnlt', ih bs cs hab hbc]

instance : IsTotal String pathLe :=
  ⟨fun a b => charListLe_total a.data b.data⟩

instance : IsTrans String pathLe :=
  ⟨fun _ _ _ hab hbc => charListLe_trans _ _ _ hab hbc⟩

theorem mem_listFiles : ∀ (es : EntryList) (n : String) (d : FileData),
    (n, d) ∈ listFiles es ↔ Entry.file n d ∈ entsToList es
  | .nil, n, d => by simp [listFiles, entsToList]
  | .cons (.file m fd) rest, n, d => by
    simp [listFiles, entsToList, mem_listFiles rest n d, Prod.ext_iff, Entry.file.injEq]
  | .cons (.dir m cs) rest, n, d => by
    simp [listFiles, entsToList, mem_listFiles rest n d]

mutual
theorem walkEntry_no_excluded (excluded : List String) :
    ∀ (e : Entry) (q : List String × FileData), q ∈ walkEntry excluded e →
      q.1 ≠ [] ∧ ∀ c ∈ q.1.dropLast, c ∉ excluded
  | .file n d, q, hq => by simp [walkEntry] at hq
  | .dir n cs, q, hq => by
    rw [walkEntry] at hq
    by_cases hex : is_excluded_dir excluded n = true
    · simp [hex] at hq
    · have hnotin : n ∉ excluded := by
        simpa [is_excluded_dir] using hex
      simp only [hex, if_false, Bool.false_eq_true, List.mem_map, List.mem_append] at hq
      obtain ⟨p, hp, rfl⟩ := hq
      rcases hp with hp | hp
      · obtain ⟨nd, _, rfl⟩ := hp
        refine ⟨by simp, ?_⟩
        intro c hc
        simp only [List.dropLast] at hc
        simp only [List.mem_singleton] at hc
        subst hc
        exact hnotin
      · obtain ⟨hne, hin⟩ := descend_no_excluded excluded cs p hp
        refine ⟨by simp, ?_⟩
        intro c hc
        obtain ⟨x, xs, hp1⟩ : ∃ x xs, p.1 = x :: xs := by
          cases h : p.1 with
          | nil => exact absurd h hne
          | cons x xs => exact ⟨x, xs, rfl⟩
        rw [hp1, List.dropLast_cons₂, List.mem_cons] at hc
        rcases hc with rfl | hc
        · exact hnotin
        · exact hin c (hp1 ▸ hc)

theorem descend_no_excluded (excluded : List String) :
    ∀ (es : EntryList) (q : List String × FileData), q ∈ descend excluded es →
      q.1 ≠ [] ∧ ∀ c ∈ q.1.dropLast, c ∉ excluded
  | .nil, q, hq => by simp [descend] at hq
  | .cons e rest, q, hq => by
    rw [descend] at hq
    rcases List.mem_append.mp hq with h | h
    · exact walkEntry_no_excluded excluded e q h
    · exact descend_no_excluded excluded rest q h
end

/-! Concrete fixtures used by witnesses and counterexamples. -/

/-- A readable file holding the ASCII text `s` as bytes. -/
def fdText (s : String) : FileData := ⟨true, s.data.map Char.toNat⟩

/-- Environment in which `mimetypes.guess_type` resolves nothing and the
lossy UTF-8 decoder is instantiated with the byte-per-character decoder. -/
def envNoMime : Env := ⟨fun _ => none, latin1Decode⟩

/-- Children of the sample root: a matching text file, a leak inside
`node_modules`, and a non-matching file inside `sub`. -/
def sampleChildren : EntryList :=
  .cons (.file "a.txt" (fdText "mail user@example.com here"))
    (.cons (.dir "node_modules" (.cons (.file "leak.txt" (fdText "user@example.com")) .nil))
      (.cons (.dir "sub" (.cons (.file "b.txt" (fdText "b file, no match")) .nil)) .nil))

/-- Sample search root. -/
def sampleRoot : Entry := .dir "root" sampleChildren

/-- Children of a root directory that is itself named `logs`. -/
def logsChildren : EntryList := .cons (.file "a.txt" (fdText "user@example.com")) .nil

/-- A search root whose own name `logs` sits in the exclusion set. -/
def logsRoot : Entry := .dir "logs" logsChildren

/-- C1: the claim as stated is false when the excluded directory is the
search root itself: with `logs` in the exclusion set and the root named
`logs`, the file `a.txt` directly inside it is still yielded, although it
lies beneath a directory whose final path component is `logs`. -/
theorem C1_root_excluded_counterexample :
    ¬ (∀ q ∈ find_files_root ["logs"] logsRoot,
        ∀ c ∈ ("logs" :: q.1).dropLast, c ∉ (["logs"] : List String)) := by
  decide

/-- C1 (amended): for every directory name in the exclusion set, no yielded
file path has that name among its directory components strictly below the
search root; the root itself is never pruned. -/
theorem C1_no_file_below_excluded_subdir (excluded : List String) (root : Entry)
    (q : List String × FileData) (hq : q ∈ find_files_root excluded root) :
    ∀ c ∈ q.1.dropLast, c ∉ excluded := by
  cases root with
  | file n d => simp [find_files_root] at hq
  | dir n cs =>
    rw [find_files_root, find_files] at hq
    rcases List.mem_append.mp hq with h | h
    · obtain ⟨nd, _, rfl⟩ := List.mem_map.mp h
      simp [List.dropLast]
    · exact (descend_no_excluded excluded cs q h).2

/-- C1 (amended), witnessed at a concrete tree: `b.txt` below the kept
subdirectory `sub` is yielded and no component above it is excluded. -/
theorem C1_no_file_below_excluded_subdir_witness :
    (["sub", "b.txt"], fdText "b file, no match") ∈
        find_files_root ["node_modules"] sampleRoot ∧
      "sub" ∉ (["node_modules"] : List String) :=
  ⟨by decide,
   C1_no_file_below_excluded_subdir ["node_modules"] sampleRoot
     (["sub", "b.txt"], fdText "b file, no match") (by decide) "sub" (by decide)⟩

/-- C9: exclusion pruning applies only to subdirectories discovered during
the walk, never to the search root: a file directly inside the root is
yielded even when the name of the root is in the exclusion set. -/
theorem C9_root_not_pruned (excluded : List String) (rootName : String)
    (children : EntryList) (n : String) (d : FileData)
    (_hroot : rootName ∈ excluded) (hfile : Entry.file n d ∈ entsToList children) :
    ([n], d) ∈ find_files_root excluded (.dir rootName children) := by
  rw [find_files_root, find_files]
  exact List.mem_append_left _
    (List.mem_map.mpr ⟨(n, d), (mem_listFiles children n d).mpr hfile, rfl⟩)

/-- C9, witnessed at a concrete tree: the root is named `logs`, `logs` is
excluded, and the file directly inside it is still yielded. -/
theorem C9_root_not_pruned_witness :
    ("logs" ∈ (["logs"] : List String)) ∧
      Entry.file "a.txt" (fdText "user@example.com") ∈ entsToList logsChildren ∧
      (["a.txt"], fdText "user@example.com") ∈ find_files_root ["logs"] logsRoot :=
  ⟨by decide, by decide,
   C9_root_not_pruned ["logs"] "logs" logsChildren "a.txt" (fdText "user@example.com")
     (by decide) (by decide)⟩

theorem mem_load_excluded_foldl (lines : List String) :
    ∀ (acc : List String) (s : String),
      s ∈ lines.foldl load_excluded_line acc ↔
        s ∈ acc ∨ ∃ l ∈ lines, pyStrip l = s ∧ s ≠ "" ∧ pyStartsWith s "#" = false := by
  induction lines with
  | nil => intro acc s; simp
  | cons l ls ih =>
    intro acc s
    rw [List.foldl_cons, ih]
    by_cases h : pyStrip l ≠ "" ∧ pyStartsWith (pyStrip l) "#" = false
    · have hle : load_excluded_line acc l = List.insert (pyStrip l) acc := by
        simp only [load_excluded_line]
        rw [if_pos h]
      rw [hle]
      constructor
      · rintro (hs | ⟨l', hl', hs⟩)
        · rcases List.mem_insert_iff.mp hs with rfl | hs
          · exact Or.inr ⟨l, List.mem_cons_self l ls, rfl, h.1, h.2⟩
          · exact Or.inl hs
        · exact Or.inr ⟨l', List.mem_cons_of_mem l hl', hs⟩
      · rintro (hs | ⟨l', hl', hs⟩)
        · exact Or.inl (List.mem_insert_iff.mpr (Or.inr hs))
        · rcases List.mem_cons.mp hl' with rfl | hl'
          · exact Or.inl (List.mem_insert_iff.mpr (Or.inl hs.1.symm))
          · exact Or.inr ⟨l', hl', hs⟩
    · have hle : load_excluded_line acc l = acc := by
        simp only [load_excluded_line]
        rw [if_neg h]
      rw [hle]
      constructor
      · rintro (hs | ⟨l', hl', hs⟩)
        · exact Or.inl hs
        · exact Or.inr ⟨l', List.mem_cons_of_mem l hl', hs⟩
      · rintro (hs | ⟨l', hl', hs⟩)
        · exact Or.inl hs
        · rcases List.mem_cons.mp hl' with rfl | hl'
          · exact absurd ⟨hs.1 ▸ hs.2.1, hs.1 ▸ hs.2.2⟩ h
          · exact Or.inr ⟨l', hl', hs⟩

/-- C4: the claim as stated is false: a non-blank, non-comment line is not
inserted verbatim; the line `"  foo"` (leading spaces) is not in the loaded
set, its stripped form `"foo"` is. -/
theorem C4_verbatim_counterexample :
    "  foo" ∉ load_excluded_dirs ["  foo"] ∧ "foo" ∈ load_excluded_dirs ["  foo"] := by
  decide

/-- C4 (amended): the loader ignores blank lines and lines whose first
non-space character is a hash, and inserts every remaining line after
stripping its leading and trailing whitespace, with no glob or pattern
expansion: membership in the loaded set is exactly being the non-empty,
non-comment stripped form of some input line. -/
theorem C4_loader_strips (lines : List String) (s : String) :
    s ∈ load_excluded_dirs lines ↔
      ∃ l ∈ lines, pyStrip l = s ∧ s ≠ "" ∧ pyStartsWith s "#" = false := by
  rw [load_excluded_dirs, mem_load_excluded_foldl]
  simp

/-- MIME types the spec calls textual: `text/*`, `application/json`,
`application/xml`, `text/xml`. -/
def textualMime (m : String) : Bool :=
  pyStartsWith m "text/" || m == "application/json"
    || m == "application/xml" || m == "text/xml"

/-- Statement of the binary classifier taken from the words of the spec:
extension in the deny-list, or a resolved MIME type that is not textual, or
a null byte in the first 1024 bytes, a failed read counting as binary. -/
def binary_classifier_spec (env : Env) (pathStr fname : String) (fd : FileData) : Bool :=
  decide (strLower (pySuffix fname) ∈ binary_extensions)
    || (match env.guessType pathStr with
        | some m => !(textualMime m)
        | none => false)
    || (match tryRead fd with
        | some bs => (bs.take 1024).contains 0
        | none => true)

/-- C2: the classifier of the source decides exactly as the four-step
short-circuit procedure of the spec, for every environment, path and file
state. -/
theorem C2_classifier_decision_order (env : Env) (pathStr fname : String) (fd : FileData) :
    is_binary_file env pathStr fname fd = binary_classifier_spec env pathStr fname fd := by
  unfold is_binary_file binary_classifier_spec textualMime nullByteCheck
  by_cases hext : strLower (pySuffix fname) ∈ binary_extensions
  · simp [hext]
  · simp only [hext, if_false, decide_eq_false hext, Bool.false_or]
    cases hm : env.guessType pathStr with
    | none => cases htr : tryRead fd <;> simp
    | some m =>
      by_cases ht : pyStartsWith m "text/" = true
      · simp [ht]
      · by_cases h1 : m = "application/json"
        · simp [h1]
        · by_cases h2 : m = "application/xml"
          · simp [h2]
          · by_cases h3 : m = "text/xml"
            · simp [h3]
            · simp [ht, h1, h2, h3]

theorem mem_search_domain (env : Env) (excluded : List String) (domain : String)
    (searchPath : String) (root : Entry) (p : String) :
    p ∈ search_domain env excluded domain searchPath root ↔
      ∃ q ∈ find_files_root excluded root,
        renderPath searchPath q.1 = p ∧
        search_file_content env domain (renderPath searchPath q.1) (q.1.getLastD "") q.2 = true := by
  unfold search_domain
  rw [List.mem_insertionSort, List.mem_dedup, List.mem_map]
  constructor
  · rintro ⟨q, hq, hp⟩
    obtain ⟨hmem, hpred⟩ := List.mem_filter.mp hq
    exact ⟨q, hmem, hp, hpred⟩
  · rintro ⟨q, hmem, hp, hpred⟩
    exact ⟨q, List.mem_filter.mpr ⟨hmem, hpred⟩, hp⟩

/-- C3: for every run the reporter writes exactly the matching candidate
paths — one per line with no header or footer, overwriting any previous
content — and the written list is duplicate-free, sorted in the string
order used by Python, and holds precisely the paths of walked files whose
content search succeeded. -/
theorem C3_reporter_exact_sorted_output (env : Env) (excluded : List String)
    (domain searchPath : String) (root : Entry) (prev : String) :
    save_results prev (search_domain env excluded domain searchPath root) =
        String.join ((search_domain env excluded domain searchPath root).map
          (fun p => p ++ "\n")) ∧
      (search_domain env excluded domain searchPath root).Sorted pathLe ∧
      (search_domain env excluded domain searchPath root).Nodup ∧
      ∀ p, p ∈ search_domain env excluded domain searchPath root ↔
        ∃ q ∈ find_files_root excluded root,
          renderPath searchPath q.1 = p ∧
          search_file_content env domain (renderPath searchPath q.1) (q.1.getLastD "") q.2 = true := by
  refine ⟨rfl, ?_, ?_, fun p => mem_search_domain env excluded domain searchPath root p⟩
  · exact List.sorted_insertionSort pathLe _
  · exact ((List.perm_insertionSort pathLe _).nodup_iff).mpr (List.nodup_dedup _)

/-- C6: with identical inputs and an unchanged filesystem, a second
consecutive run writes an identical output file: the output content does
not depend on what the output file held before, because mode `w`
truncates. -/
theorem C6_consecutive_runs_identical (env : Env) (excludeLines : List String)
    (domain searchPath : String) (root : Entry) (prev : String) :
    runOutput env excludeLines domain searchPath root
        (runOutput env excludeLines domain searchPath root prev) =
      runOutput env excludeLines domain searchPath root prev := rfl

/-- C7: every path in the written result list corresponds to a walked file
that is readable and whose leniently decoded content contains the search
domain as a literal substring. -/
theorem C7_round_trip (env : Env) (excluded : List String) (domain searchPath : String)
    (root : Entry) (p : String)
    (hp : p ∈ search_domain env excluded domain searchPath root) :
    ∃ q ∈ find_files_root excluded root,
      renderPath searchPath q.1 = p ∧ q.2.readable = true ∧
      strContainsSub (env.decodeUtf8 q.2.content) domain = true := by
  obtain ⟨q, hq, hrender, hmatch⟩ :=
    (mem_search_domain env excluded domain searchPath root p).mp hp
  rw [search_file_content] at hmatch
  by_cases hbin :
      is_binary_file env (renderPath searchPath q.1) (q.1.getLastD "") q.2 = true
  · rw [if_pos hbin] at hmatch
    exact absurd hmatch (by simp)
  · rw [if_neg hbin] at hmatch
    cases hr : q.2.readable with
    | false =>
      have hnone : tryRead q.2 = none := by simp [tryRead, hr]
      rw [hnone] at hmatch
      exact absurd hmatch (by simp)
    | true =>
      have hsome : tryRead q.2 = some q.2.content := by simp [tryRead, hr]
      rw [hsome] at hmatch
      exact ⟨q, hq, hrender, hr, hmatch⟩

/-- C7, witnessed at a concrete run: the reported path `/r/a.txt` does come
from a readable walked file whose decoded content contains the domain. -/
theorem C7_round_trip_witness :
    ("/r/a.txt" ∈ search_domain envNoMime ["node_modules"] "@example.com" "/r" sampleRoot) ∧
      ∃ q ∈ find_files_root ["node_modules"] sampleRoot,
        renderPath "/r" q.1 = "/r/a.txt" ∧ q.2.readable = true ∧
        strContainsSub (envNoMime.decodeUtf8 q.2.content) "@example.com" = true :=
  ⟨by decide,
   C7_round_trip envNoMime ["node_modules"] "@example.com" "/r" sampleRoot "/r/a.txt"
     (by decide)⟩

/-- C5: a walked file whose lowercased extension sits in the deny-list is
classified binary purely from its name, so the content scanner never opens
it, its content search is false, and (when rendered paths of the walk are
distinct, as on a real filesystem) its path never reaches the output. -/
theorem C5_denylisted_never_scanned (env : Env) (excluded : List String)
    (domain searchPath : String) (root : Entry) (q : List String × FileData)
    (hq : q ∈ find_files_root excluded root)
    (hext : strLower (pySuffix (q.1.getLastD "")) ∈ binary_extensions)
    (hnodup : ((find_files_root excluded root).map
      (fun r => renderPath searchPath r.1)).Nodup) :
    content_scanned env (renderPath searchPath q.1) (q.1.getLastD "") q.2 = false ∧
      search_file_content env domain (renderPath searchPath q.1) (q.1.getLastD "") q.2 = false ∧
      renderPath searchPath q.1 ∉ search_domain env excluded domain searchPath root := by
  have hbin : is_binary_file env (renderPath searchPath q.1) (q.1.getLastD "") q.2 = true := by
    rw [is_binary_file, if_pos hext]
  have hsearch :
      search_file_content env domain (renderPath searchPath q.1) (q.1.getLastD "") q.2 = false := by
    rw [search_file_content, if_pos hbin]
  refine ⟨by simp only [content_scanned, hbin, Bool.not_true], hsearch, ?_⟩
  intro hin
  obtain ⟨q', hq', hrender, hmatch⟩ :=
    (mem_search_domain env excluded domain searchPath root _).mp hin
  have hqq : q' = q :=
    List.inj_on_of_nodup_map hnodup hq' hq hrender
  rw [hqq, hsearch] at hmatch
  exact absurd hmatch (by simp)

/-- Tree holding one deny-listed file that does contain the domain. -/
def denyTree : Entry := .dir "root" (.cons (.file "doc.pdf" (fdText "user@example.com")) .nil)

/-- C5, witnessed at a concrete tree: the `doc.pdf` file containing the
domain is never content-scanned and never reported. -/
theorem C5_denylisted_never_scanned_witness :
    ((["doc.pdf"], fdText "user@example.com") ∈ find_files_root [] denyTree) ∧
      content_scanned envNoMime (renderPath "/r" ["doc.pdf"]) "doc.pdf"
        (fdText "user@example.com") = false ∧
      search_file_content envNoMime "@example.com" (renderPath "/r" ["doc.pdf"]) "doc.pdf"
        (fdText "user@example.com") = false ∧
      renderPath "/r" ["doc.pdf"] ∉ search_domain envNoMime [] "@example.com" "/r" denyTree := by
  refine ⟨by decide, ?_⟩
  have h := C5_denylisted_never_scanned envNoMime [] "@example.com" "/r" denyTree
    (["doc.pdf"], fdText "user@example.com") (by decide) (by decide) (by decide)
  exact h

/-- C8: the process exits 0 exactly when the search path is an existing
directory and the run finishes normally, and 1 in every other case
(missing or non-directory path, interrupt, uncaught error); and every
per-file read failure is caught inside `search_file_content`, which then
reports the file as non-matching instead of aborting. -/
theorem C8_exit_codes_and_per_file_errors :
    (∀ (root : Option Entry) (ev : RunEvent),
        (exit_code root ev = 0 ∨ exit_code root ev = 1) ∧
        (exit_code root ev = 0 ↔ (∃ n cs, root = some (.dir n cs)) ∧ ev = .ok)) ∧
      ∀ (env : Env) (domain pathStr fname : String) (fd : FileData),
        fd.readable = false →
        search_file_content env domain pathStr fname fd = false := by
  constructor
  · intro root ev
    cases root with
    | none => simp [exit_code]
    | some e =>
      cases e with
      | file n d => simp [exit_code]
      | dir n cs => cases ev <;> simp [exit_code]
  · intro env domain pathStr fname fd hr
    have hnone : tryRead fd = none := by simp [tryRead, hr]
    rw [search_file_content]
    by_cases hbin : is_binary_file env pathStr fname fd = true
    · rw [if_pos hbin]
    · rw [if_neg hbin, hnone]

/-- C8, witnessed concretely: a run over an existing directory that ends
normally exits 0, and an unreadable file is reported non-matching. -/
theorem C8_exit_codes_witness :
    exit_code (some sampleRoot) RunEvent.ok = 0 ∧
      search_file_content envNoMime "@example.com" "/r/locked.txt" "locked.txt"
        ⟨false, []⟩ = false :=
  ⟨by decide,
   C8_exit_codes_and_per_file_errors.2 envNoMime "@example.com" "/r/locked.txt"
     "locked.txt" ⟨false, []⟩ rfl⟩

/-- C10: when the exclusion file exists its content is left exactly as it
was (the run writes only the output file), and only when it is absent is it
created with the fixed default list. -/
theorem C10_exclusion_file_frame (c : String) :
    exclude_file_after_run (some c) = c ∧
      exclude_file_after_run none = create_default_exclude_file :=
  ⟨rfl, rfl⟩
